import Mathlib

/-
Verification development for the agent-tower deliberation engines
(scripts/lib/council_mode.py, debate_mode.py, deliberation_mode.py,
council.py, response.py).

The Python code is shallowly embedded: pure functions become Lean
functions, the stateful round loops become explicit state passing,
Python floats are modelled as rationals, Python dicts as association
lists built with last-wins upsert (mirroring dict insertion-order
semantics), and the places where DeliberationMode.run can raise (the
final read of a possibly-unbound local, and the two display-summary
blocks inside the loop body) are modelled with `Except`.
-/

set_option linter.unusedVariables false

/-- A JSON value, as produced by Python's json.loads.  Python ints and
floats are both modelled as rationals (the claims under study only
compare small decimal literals, where float rounding cannot change the
verdict of a `≥` comparison). -/
inductive JVal where
  | null : JVal
  | bool : Bool → JVal
  | num : Rat → JVal
  | str : String → JVal
  | arr : List JVal → JVal
  | obj : List (String × JVal) → JVal

/-- Python dict insert: replace the value in place if the key exists
(keeping its position, as CPython dicts do), otherwise append. -/
def pyUpsert {α : Type} (d : List (String × α)) (k : String) (v : α) :
    List (String × α) :=
  match d with
  | [] => [(k, v)]
  | (k', v') :: rest =>
    if k' == k then (k, v) :: rest else (k', v') :: pyUpsert rest k v

/-- Python dict construction from a sequence of key-value pairs
(later pairs overwrite earlier ones). -/
def pyDictOfList {α : Type} (l : List (String × α)) : List (String × α) :=
  l.foldl (fun d p => pyUpsert d p.1 p.2) []

/-- Python `d.get(k)`: the value under the first matching key, if any. -/
def pyGet {α : Type} (d : List (String × α)) (k : String) : Option α :=
  (d.find? (fun p => p.1 == k)).map (fun p => p.2)

/-- Whitespace skipping for the JSON reader. -/
def jsonSkipWs : List Char → List Char
  | [] => []
  | c :: rest =>
    if c = ' ' ∨ c = '\t' ∨ c = '\n' ∨ c = '\r' then jsonSkipWs rest
    else c :: rest

/-- Digit prefix of a character list. -/
def jsonTakeDigits : List Char → List Char × List Char
  | [] => ([], [])
  | c :: rest =>
    if c.isDigit then
      let p := jsonTakeDigits rest
      (c :: p.1, p.2)
    else ([], c :: rest)

/-- Value of a digit string. -/
def digitsToNat (l : List Char) : Nat :=
  l.foldl (fun n c => n * 10 + (c.toNat - 48)) 0

/-- Hex digit value, if the character is one. -/
def hexDigitVal (c : Char) : Option Nat :=
  if c.isDigit then some (c.toNat - 48)
  else if 'a' ≤ c ∧ c ≤ 'f' then some (c.toNat - 87)
  else if 'A' ≤ c ∧ c ≤ 'F' then some (c.toNat - 55)
  else none

/-- Body of a JSON string literal: reads up to the closing quote,
handling the standard escapes (a lone \u escape becomes the code point
it names; surrogate pairing is not modelled, no claim exercises it). -/
def jsonStrAux : List Char → Option (List Char × List Char)
  | [] => none
  | '"' :: rest => some ([], rest)
  | '\\' :: 'u' :: h1 :: h2 :: h3 :: h4 :: rest3 =>
    match hexDigitVal h1, hexDigitVal h2, hexDigitVal h3, hexDigitVal h4 with
    | some a, some b, some c', some d =>
      match jsonStrAux rest3 with
      | some (cs, r) =>
        some (Char.ofNat (((a * 16 + b) * 16 + c') * 16 + d) :: cs, r)
      | none => none
    | _, _, _, _ => none
  | '\\' :: e :: rest2 =>
    match
      (if e = '"' then some '"'
       else if e = '\\' then some '\\'
       else if e = '/' then some '/'
       else if e = 'b' then some (Char.ofNat 8)
       else if e = 'f' then some (Char.ofNat 12)
       else if e = 'n' then some '\n'
       else if e = 'r' then some '\r'
       else if e = 't' then some '\t'
       else none) with
    | some ec =>
      match jsonStrAux rest2 with
      | some (cs, r) => some (ec :: cs, r)
      | none => none
    | none => none
  | '\\' :: [] => none
  | c :: rest =>
    match jsonStrAux rest with
    | some (cs, r) => some (c :: cs, r)
    | none => none

/-- Power of ten, kept as a plain recursive definition so that
concrete parses reduce inside the kernel. -/
def natPow10 : Nat → Nat
  | 0 => 1
  | Nat.succ n => natPow10 n * 10

/-- JSON number: optional minus, integer part (a lone 0 or a nonzero
digit run), optional fraction, optional exponent. -/
def jsonNumber (l : List Char) : Option (Rat × List Char) :=
  let signAndRest : Bool × List Char :=
    match l with
    | '-' :: r => (true, r)
    | _ => (false, l)
  let neg := signAndRest.1
  let l1 := signAndRest.2
  match l1 with
  | [] => none
  | c :: rest =>
    if ¬ c.isDigit then none
    else
      let ipart : List Char × List Char :=
        if c = '0' then (['0'], rest) else jsonTakeDigits (c :: rest)
      let intDigits := ipart.1
      let l2 := ipart.2
      let fracPart : List Char × List Char :=
        match l2 with
        | '.' :: r2 =>
          let p := jsonTakeDigits r2
          (p.1, p.2)
        | _ => ([], l2)
      let fracDigits := fracPart.1
      let l3 : List Char :=
        match l2 with
        | '.' :: r2 => fracPart.2
        | _ => l2
      if (match l2 with | '.' :: _ => fracDigits.isEmpty | _ => false) then none
      else
        let expParse : Option (Int × List Char) :=
          match l3 with
          | 'e' :: r3 =>
            match r3 with
            | '+' :: r4 =>
              let p := jsonTakeDigits r4
              if p.1.isEmpty then none else some ((digitsToNat p.1 : Int), p.2)
            | '-' :: r4 =>
              let p := jsonTakeDigits r4
              if p.1.isEmpty then none else some (-(digitsToNat p.1 : Int), p.2)
            | _ =>
              let p := jsonTakeDigits r3
              if p.1.isEmpty then none else some ((digitsToNat p.1 : Int), p.2)
          | 'E' :: r3 =>
            match r3 with
            | '+' :: r4 =>
              let p := jsonTakeDigits r4
              if p.1.isEmpty then none else some ((digitsToNat p.1 : Int), p.2)
            | '-' :: r4 =>
              let p := jsonTakeDigits r4
              if p.1.isEmpty then none else some (-(digitsToNat p.1 : Int), p.2)
            | _ =>
              let p := jsonTakeDigits r3
              if p.1.isEmpty then none else some ((digitsToNat p.1 : Int), p.2)
          | _ => some (0, l3)
        match expParse with
        | none => none
        | some (e, rest') =>
          let mant : Nat := digitsToNat (intDigits ++ fracDigits)
          let scaled : Rat :=
            if e ≥ 0 then
              mkRat (Int.ofNat (mant * natPow10 e.toNat)) (natPow10 fracDigits.length)
            else
              mkRat (Int.ofNat mant) (natPow10 fracDigits.length * natPow10 (-e).toNat)
          some ((if neg then -scaled else scaled), rest')

mutual

/-- Fuel-indexed recursive-descent reader for a JSON value; models
json.loads applied to a prefix, returning the value and the remaining
input. -/
def jsonVal : Nat → List Char → Option (JVal × List Char)
  | 0, _ => none
  | Nat.succ fuel, l =>
    match jsonSkipWs l with
    | [] => none
    | c :: rest =>
      if c = 'n' then
        match rest with
        | 'u' :: 'l' :: 'l' :: r => some (JVal.null, r)
        | _ => none
      else if c = 't' then
        match rest with
        | 'r' :: 'u' :: 'e' :: r => some (JVal.bool true, r)
        | _ => none
      else if c = 'f' then
        match rest with
        | 'a' :: 'l' :: 's' :: 'e' :: r => some (JVal.bool false, r)
        | _ => none
      else if c = '"' then
        match jsonStrAux rest with
        | some (cs, r) => some (JVal.str (String.mk cs), r)
        | none => none
      else if c = '\x7b' then
        match jsonSkipWs rest with
        | '\x7d' :: r => some (JVal.obj [], r)
        | _ => jsonMembers fuel rest []
      else if c = '[' then
        match jsonSkipWs rest with
        | ']' :: r => some (JVal.arr [], r)
        | _ => jsonItems fuel rest []
      else
        match jsonNumber (c :: rest) with
        | some (q, r) => some (JVal.num q, r)
        | none => none

/-- Members of a JSON object after the opening brace or a comma;
duplicate keys overwrite (Python dict semantics). -/
def jsonMembers : Nat → List Char → List (String × JVal) →
    Option (JVal × List Char)
  | 0, _, _ => none
  | Nat.succ fuel, l, acc =>
    match jsonSkipWs l with
    | '"' :: rest =>
      match jsonStrAux rest with
      | none => none
      | some (kcs, r1) =>
        match jsonSkipWs r1 with
        | ':' :: r2 =>
          match jsonVal fuel r2 with
          | none => none
          | some (v, r3) =>
            let acc' := pyUpsert acc (String.mk kcs) v
            match jsonSkipWs r3 with
            | ',' :: r4 => jsonMembers fuel r4 acc'
            | '\x7d' :: r4 => some (JVal.obj acc', r4)
            | _ => none
        | _ => none
    | _ => none

/-- Items of a JSON array after the opening bracket or a comma. -/
def jsonItems : Nat → List Char → List JVal → Option (JVal × List Char)
  | 0, _, _ => none
  | Nat.succ fuel, l, acc =>
    match jsonVal fuel l with
    | none => none
    | some (v, r) =>
      let acc' := acc ++ [v]
      match jsonSkipWs r with
      | ',' :: r2 => jsonItems fuel r2 acc'
      | ']' :: r2 => some (JVal.arr acc', r2)
      | _ => none

end

/-- Model of Python json.loads: the whole string must be one JSON
value (up to surrounding whitespace); `none` models JSONDecodeError. -/
def loads (s : String) : Option JVal :=
  match jsonVal (4 * s.length + 4) s.data with
  | some (v, rest) => if (jsonSkipWs rest).isEmpty then some v else none
  | none => none

/-- Python truthiness of a JSON value (empty dict/list/string and zero
are falsy, as is None). -/
def pyTruthy : JVal → Bool
  | JVal.null => false
  | JVal.bool b => b
  | JVal.num q => q ≠ 0
  | JVal.str s => s ≠ ""
  | JVal.arr xs => ¬ xs.isEmpty
  | JVal.obj kvs => ¬ kvs.isEmpty

/-- Truthiness of an `Optional` Python value (None is falsy). -/
def pyTruthyOpt : Option JVal → Bool
  | none => false
  | some v => pyTruthy v

/-- Python `v.get(k)` on a JSON value known to be a dict; on a
non-dict Python would raise AttributeError, which no claim under study
reaches. -/
def jGet (v : JVal) (k : String) : Option JVal :=
  match v with
  | JVal.obj kvs => pyGet kvs k
  | _ => none

/-- Python `v.get(k, default)` where the caller goes on to use the
result as a number.  A present non-numeric value would flow through in
Python and fail later at the comparison; the claims under study only
exercise numeric or absent values, so both fall to the default here. -/
def jGetNumD (v : JVal) (k : String) (d : Rat) : Rat :=
  match jGet v k with
  | some (JVal.num q) => q
  | _ => d

/-- Python `v.get(k)` used as an optional number (see `jGetNumD` for
the treatment of present non-numeric values). -/
def jGetNumOpt (v : JVal) (k : String) : Option Rat :=
  match jGet v k with
  | some (JVal.num q) => some q
  | _ => none

/-- Python `v.get(k, default)` where the caller uses the result as a
string (the `parsed.get("argument", response.content)` pattern). -/
def jGetStrD (v : JVal) (k : String) (d : String) : String :=
  match jGet v k with
  | some (JVal.str s) => s
  | _ => d

/-- Normalized agent response (response.py, class AgentResponse).
Metadata is an open key-value map; a stored Python None is modelled as
`Option.none` in the value position, a missing key as absence from the
list. -/
structure AgentResponse where
  agent_id : String
  role : String
  content : String
  raw_output : Option String
  metadata : List (String × Option String)
deriving DecidableEq

/-- Python `self.metadata.get("error")`: None both when the key is
absent and when it is stored with value None. -/
def AgentResponse.metaError (r : AgentResponse) : Option String :=
  match r.metadata.find? (fun p => p.1 == "error") with
  | some p => p.2
  | none => none

/-- response.py, AgentResponse.is_error:
`self.metadata.get("error") is not None`. -/
def AgentResponse.is_error (r : AgentResponse) : Bool :=
  r.metaError.isSome

/-- response.py, AgentResponse.error_message: `self.metadata.get("error")`. -/
def AgentResponse.error_message (r : AgentResponse) : Option String :=
  r.metaError

/-- Python f-string interpolation of an Optional value (None prints as
"None"). -/
def pyShowOptStr : Option String → String
  | some s => s
  | none => "None"

/-- The bracketed error text the engines build from a failed response:
`f"[Error: \x7bresponse.error_message\x7d]"`. -/
def errText (r : AgentResponse) : String :=
  "[Error: " ++ pyShowOptStr r.error_message ++ "]"

/-- Suffix of the text starting at the first opening brace, if any
(Python `content.find("\x7b")` plus slicing). -/
def fromFirstBrace : List Char → Option (List Char)
  | [] => none
  | c :: rest => if c = '\x7b' then some (c :: rest) else fromFirstBrace rest

/-- The brace-depth scan inside `_parse_json`: walks the characters,
incrementing on each opening and decrementing on each closing brace,
and returns the chunk consumed when the depth first returns to zero
(the loop `for i, char in enumerate(content[start:], start)`). -/
def braceScan (depth : Nat) (acc : List Char) : List Char → Option (List Char)
  | [] => none
  | c :: rest =>
    if c = '\x7b' then braceScan (depth + 1) (acc ++ [c]) rest
    else if c = '\x7d' then
      if depth = 1 then some (acc ++ [c])
      else braceScan (depth - 1) (acc ++ [c]) rest
    else braceScan depth (acc ++ [c]) rest

/-- The candidate substring the extraction loop submits to json.loads:
from the first opening brace to the position where brace depth first
returns to zero. -/
def extractCandidate (content : String) : Option String :=
  match fromFirstBrace content.data with
  | none => none
  | some l =>
    match braceScan 0 [] l with
    | none => none
    | some cs => some (String.mk cs)

/-- council_mode.py / debate_mode.py, `_parse_json`: try json.loads on
the whole content; on failure try the single brace-balanced candidate;
on any failure return the empty dict. -/
def councilParseJson (content : String) : JVal :=
  match loads content with
  | some v => v
  | none =>
    match extractCandidate content with
    | none => JVal.obj []
    | some sub =>
      match loads sub with
      | some v => v
      | none => JVal.obj []

/-- deliberation_mode.py, `_parse_json`: same extraction, but the
fallback is Python None rather than an empty dict. -/
def delibParseJson (content : String) : Option JVal :=
  match loads content with
  | some v => some v
  | none =>
    match extractCandidate content with
    | none => none
    | some sub => loads sub

/-- One turn recorded in the deliberation history.  `data` holds the
parsed feedback / response_data attached to review and response turns
(Python stores the parse result, possibly None; for the initial turn
the Python dict simply lacks the key, modelled as `none`). -/
structure DelibTurn where
  round : Nat
  agent : String
  type : String
  content : String
  data : Option JVal

/-- deliberation_mode.py, dataclass DeliberationResult.  A present
non-numeric agreement_level would be stored as-is by Python; no claim
exercises that, and it is modelled as `none`. -/
structure DeliberationResult where
  status : String
  rounds : Nat
  agreement_level : Option Rat
  history : List DelibTurn
  error : Option String

/-- Configuration of one deliberation run: the two agent names, the
loop bounds, and oracles giving each agent's response per round.
`producerInit` is the round-1 invocation; `reviewer r` / `producer r`
are the responses to the review and feedback-response invocations of
round `r`. -/
structure DelibCtx where
  producerName : String
  reviewerName : String
  max_rounds : Nat
  consensus_threshold : Rat
  producerInit : AgentResponse
  reviewer : Nat → AgentResponse
  producer : Nat → AgentResponse

/-- Mutable local state of DeliberationMode.run across loop
iterations: the `producer_response` variable, the accumulated history,
and the `feedback` local — `none` means the Python local was never
assigned (reading it at the end raises UnboundLocalError). -/
structure DelibState where
  producerResp : AgentResponse
  history : List DelibTurn
  feedback : Option (Option JVal)

/-- One pass of the loop body over a single feedback point
(deliberation_mode.py lines 196-197): `point.get("severity",
"unknown")` raises AttributeError when the entry is not a dict, and
using an unhashable severity value (a list or dict) as the `counts`
key raises TypeError. -/
def pointCheck (x : JVal) : Except String Unit :=
  match x with
  | JVal.obj kvs =>
    match pyGet kvs "severity" with
    | some (JVal.arr _) => Except.error "TypeError: unhashable severity"
    | some (JVal.obj _) => Except.error "TypeError: unhashable severity"
    | _ => Except.ok ()
  | _ => Except.error "AttributeError: point has no attribute get"

/-- The `for point in points` loop, stopping at the first raising
entry. -/
def pointsLoopCheck : List JVal → Except String Unit
  | [] => Except.ok ()
  | x :: xs =>
    match pointCheck x with
    | Except.ok _ => pointsLoopCheck xs
    | Except.error e => Except.error e

/-- Iterating `points` (deliberation_mode.py line 195): a JSON array
iterates its elements; a string or dict iterates its characters or
keys, which are strings and so raise AttributeError at `point.get`
unless the iteration is empty; numbers, booleans and None are not
iterable at all. -/
def pointsCheck (points : JVal) : Except String Unit :=
  match points with
  | JVal.arr xs => pointsLoopCheck xs
  | JVal.str s =>
    if s = "" then Except.ok ()
    else Except.error "AttributeError: point has no attribute get"
  | JVal.obj kvs =>
    if kvs.isEmpty then Except.ok ()
    else Except.error "AttributeError: point has no attribute get"
  | _ => Except.error "TypeError: points is not iterable"

/-- The eager f-string `f"    Agreement level: \x7bagreement:.0%\x7d"`
(deliberation_mode.py line 209) is evaluated before `_log` even when
not verbose: the `.0%` format accepts numbers and booleans, raises
ValueError on a string and TypeError on None, lists and dicts. -/
def agreementFormatCheck (ag : JVal) : Except String Unit :=
  match ag with
  | JVal.num _ => Except.ok ()
  | JVal.bool _ => Except.ok ()
  | JVal.str _ => Except.error "ValueError: invalid format specifier"
  | _ => Except.error "TypeError: unsupported format string"

/-- The display-feedback-summary block (deliberation_mode.py lines
192-209), which runs unconditionally before the consensus check and
can raise out of `run`: skipped when the parsed feedback is falsy;
for truthy non-dict feedback `feedback.get` itself raises; otherwise
the `points` iteration and the agreement format are exercised in
order. -/
def reviewSummaryCheck (fb : Option JVal) : Except String Unit :=
  match fb with
  | none => Except.ok ()
  | some v =>
    if pyTruthy v then
      match v with
      | JVal.obj kvs =>
        match pointsCheck ((pyGet kvs "points").getD (JVal.arr [])) with
        | Except.error e => Except.error e
        | Except.ok _ =>
          agreementFormatCheck ((pyGet kvs "agreement_level").getD (JVal.num 0))
      | _ => Except.error "AttributeError: feedback has no attribute get"
    else Except.ok ()

/-- Python `len(v)`: defined for strings, lists and dicts, raising
TypeError otherwise. -/
def lenCheck (v : JVal) : Except String Unit :=
  match v with
  | JVal.arr _ => Except.ok ()
  | JVal.str _ => Except.ok ()
  | JVal.obj _ => Except.ok ()
  | _ => Except.error "TypeError: object has no len"

/-- The display-response-summary block (deliberation_mode.py lines
249-261), which runs after the response turn is recorded and can raise
out of `run`: skipped when the parsed response_data is falsy; truthy
non-dict response_data raises at `.get`; the two eager `len(...)`
calls raise on unsized values, and `len(changes)` is evaluated only
when `changes` is truthy. -/
def responseSummaryCheck (rd : Option JVal) : Except String Unit :=
  match rd with
  | none => Except.ok ()
  | some v =>
    if pyTruthy v then
      match v with
      | JVal.obj kvs =>
        match lenCheck ((pyGet kvs "agreed_points").getD (JVal.arr [])) with
        | Except.error e => Except.error e
        | Except.ok _ =>
          match lenCheck ((pyGet kvs "disputed_points").getD (JVal.arr [])) with
          | Except.error e => Except.error e
          | Except.ok _ =>
            let changes := (pyGet kvs "implemented_changes").getD (JVal.arr [])
            if pyTruthy changes then lenCheck changes else Except.ok ()
      | _ => Except.error "AttributeError: response_data has no attribute get"
    else Except.ok ()

/-- Numeric value of the agreement as Python's `>=` against the float
threshold sees it once the format check has passed: a number is
itself, a boolean counts as 1 or 0.  (Other shapes cannot reach the
comparison: they raise in `agreementFormatCheck` first.) -/
def pyNumVal : JVal → Rat
  | JVal.num q => q
  | JVal.bool b => if b then 1 else 0
  | _ => 0

/-- The `agreement = feedback.get("agreement_level", 0)` value used by
the consensus comparison. -/
def agreementOf (v : JVal) : Rat :=
  pyNumVal ((jGet v "agreement_level").getD (JVal.num 0))

/-- One iteration of the `for round_num in range(2, max_rounds + 1)`
loop of DeliberationMode.run: `Except.error` is an exception escaping
`run` (raised by one of the display blocks), `Sum.inl` an early return
(consensus), `Sum.inr` the state passed to the next iteration.  Note
that a failed producer invocation still reassigns the
`producer_response` variable before the error check. -/
def delibStep (ctx : DelibCtx) (r : Nat) (st : DelibState) :
    Except String (DeliberationResult ⊕ DelibState) :=
  let rv := ctx.reviewer r
  if rv.is_error then Except.ok (Sum.inr st)
  else
    let fb := delibParseJson rv.content
    let hist1 := st.history ++ [⟨r, ctx.reviewerName, "review", rv.content, fb⟩]
    match reviewSummaryCheck fb with
    | Except.error e => Except.error e
    | Except.ok _ =>
      if pyTruthyOpt fb ∧
          ctx.consensus_threshold ≤ agreementOf (fb.getD JVal.null) then
        Except.ok (Sum.inl ⟨"consensus", r,
          some (agreementOf (fb.getD JVal.null)), hist1, none⟩)
      else
        let pv := ctx.producer r
        if pv.is_error then Except.ok (Sum.inr ⟨pv, hist1, some fb⟩)
        else
          let rd := delibParseJson pv.content
          let hist2 := hist1 ++ [⟨r, ctx.producerName, "response", pv.content, rd⟩]
          match responseSummaryCheck rd with
          | Except.error e => Except.error e
          | Except.ok _ => Except.ok (Sum.inr ⟨pv, hist2, some fb⟩)

/-- The final `return DeliberationResult(status="max_rounds", ...)` of
DeliberationMode.run.  It reads the loop-local `feedback`; if no review
invocation ever succeeded that local was never assigned and Python
raises UnboundLocalError, modelled as `Except.error`. -/
def delibFinal (ctx : DelibCtx) (st : DelibState) :
    Except String DeliberationResult :=
  match st.feedback with
  | none => Except.error "UnboundLocalError: feedback"
  | some fb =>
    Except.ok ⟨"max_rounds", ctx.max_rounds,
      (if pyTruthyOpt fb then jGetNumOpt (fb.getD JVal.null) "agreement_level"
       else none),
      st.history, none⟩

/-- The round loop of DeliberationMode.run.  `fuel` is the number of
iterations left in `range(2, max_rounds + 1)` (the caller passes
`max_rounds - 1`), and `r` the round counter; recursion is structural
on the fuel so that concrete runs compute. -/
def delibLoop (ctx : DelibCtx) (fuel : Nat) (r : Nat) (st : DelibState) :
    Except String DeliberationResult :=
  match fuel with
  | 0 => delibFinal ctx st
  | Nat.succ f =>
    match delibStep ctx r st with
    | Except.error e => Except.error e
    | Except.ok (Sum.inl res) => Except.ok res
    | Except.ok (Sum.inr st') => delibLoop ctx f (r + 1) st'

/-- deliberation_mode.py, DeliberationMode.run: round-1 producer
invocation (a failure there is fatal), then the review/response loop
over rounds 2..max_rounds. -/
def delibRun (ctx : DelibCtx) : Except String DeliberationResult :=
  let pr := ctx.producerInit
  if pr.is_error then
    Except.ok ⟨"error", 1, none, [], pr.error_message⟩
  else
    delibLoop ctx (ctx.max_rounds - 1) 2
      ⟨pr, [⟨1, ctx.producerName, "initial", pr.content, none⟩], none⟩

/-- debate_mode.py, dataclass DebateArgument. -/
structure DebateArgument where
  agent_id : String
  position : String
  round_num : Nat
  argument : String
  key_points : List String
  confidence : Rat

/-- debate_mode.py, dataclass DebateJudgment. -/
structure DebateJudgment where
  judge_id : String
  winner : String
  reasoning : String
  score_pro : Rat
  score_con : Rat
  key_factors : List String

/-- debate_mode.py, dataclass DebateResult. -/
structure DebateResult where
  question : String
  pro_agent : String
  con_agent : String
  arguments : List DebateArgument
  judgment : DebateJudgment
  rounds : Nat

/-- Configuration of one debate run: names, round bound, and oracles
giving each agent's response per invocation (rebuttal oracles are
indexed by the loop's round_num, 2..max_rounds). -/
structure DebateCtx where
  question : String
  proName : String
  conName : String
  judgeName : String
  max_rounds : Nat
  proOpening : AgentResponse
  conOpening : AgentResponse
  proRebuttal : Nat → AgentResponse
  conRebuttal : Nat → AgentResponse
  judgeResp : AgentResponse

/-- Python `parsed.get("key_points", [])` used as a list of strings. -/
def jGetStrListD (v : JVal) (k : String) : List String :=
  match jGet v k with
  | some (JVal.arr xs) =>
    xs.filterMap (fun x => match x with | JVal.str s => some s | _ => none)
  | _ => []

/-- debate_mode.py, DebateMode._get_opening_argument applied to the
agent's response: an error response degrades to a zero-confidence
bracketed-error argument in round 1. -/
def openingArgument (name : String) (position : String) (resp : AgentResponse) :
    DebateArgument :=
  if resp.is_error then
    ⟨name, position, 1, errText resp, [], 0⟩
  else
    let parsed := councilParseJson resp.content
    ⟨name, position, 1, jGetStrD parsed "argument" resp.content,
      jGetStrListD parsed "key_points", jGetNumD parsed "confidence" (mkRat 7 10)⟩

/-- Python `max((a.round_num for a in self.arguments), default=0)`. -/
def maxRoundNum (args : List DebateArgument) : Nat :=
  args.foldl (fun m a => max m a.round_num) 0

/-- debate_mode.py, DebateMode._get_rebuttal applied to the agent's
response, with `current_round` already computed from the argument list
at call time (`1 + max round number among all arguments so far`). -/
def rebuttalArgument (name : String) (position : String) (currentRound : Nat)
    (resp : AgentResponse) : DebateArgument :=
  if resp.is_error then
    ⟨name, position, currentRound, errText resp, [], 0⟩
  else
    let parsed := councilParseJson resp.content
    ⟨name, position, currentRound, jGetStrD parsed "argument" resp.content,
      jGetStrListD parsed "key_points", jGetNumD parsed "confidence" (mkRat 7 10)⟩

/-- debate_mode.py, DebateMode._get_last_argument: last argument for a
position, scanning the list in reverse; Python raises ValueError when
none exists. -/
def getLastArgument (args : List DebateArgument) (position : String) :
    Option DebateArgument :=
  args.reverse.find? (fun a => a.position == position)

/-- debate_mode.py, DebateMode._get_judgment applied to the judge's
response: an error response degrades to winner "pro" with 0.5/0.5
scores and the bracketed error as reasoning. -/
def debateJudgment (judgeName : String) (resp : AgentResponse) : DebateJudgment :=
  if resp.is_error then
    ⟨judgeName, "pro", errText resp, mkRat 1 2, mkRat 1 2, []⟩
  else
    let parsed := councilParseJson resp.content
    ⟨judgeName, jGetStrD parsed "winner" "pro",
      jGetStrD parsed "reasoning" resp.content,
      jGetNumD parsed "score_pro" (mkRat 1 2), jGetNumD parsed "score_con" (mkRat 1 2),
      jGetStrListD parsed "key_factors"⟩

/-- The rebuttal loop of DebateMode.run (rounds 2..max_rounds): pro
rebuts con's last argument, then con rebuts pro's fresh rebuttal; the
`ValueError` the code would raise on a missing opponent argument is
modelled as `Except.error`. -/
def debateLoop (ctx : DebateCtx) (fuel : Nat) (r : Nat)
    (args : List DebateArgument) : Except String (List DebateArgument) :=
  match fuel with
  | 0 => Except.ok args
  | Nat.succ f =>
    match getLastArgument args "con" with
    | none => Except.error "No arguments found for position: con"
    | some _ =>
      let proArg :=
        rebuttalArgument ctx.proName "pro" (maxRoundNum args + 1) (ctx.proRebuttal r)
      let args1 := args ++ [proArg]
      let conArg :=
        rebuttalArgument ctx.conName "con" (maxRoundNum args1 + 1) (ctx.conRebuttal r)
      debateLoop ctx f (r + 1) (args1 ++ [conArg])

/-- debate_mode.py, DebateMode.run: parallel opening arguments, then
the sequential rebuttal loop over rounds 2..max_rounds (`fuel` is
`max_rounds - 1` iterations), then the judgment. -/
def debateRun (ctx : DebateCtx) : Except String DebateResult :=
  let proArg := openingArgument ctx.proName "pro" ctx.proOpening
  let conArg := openingArgument ctx.conName "con" ctx.conOpening
  match debateLoop ctx (ctx.max_rounds - 1) 2 [proArg, conArg] with
  | Except.error e => Except.error e
  | Except.ok args =>
    Except.ok ⟨ctx.question, ctx.proName, ctx.conName, args,
      debateJudgment ctx.judgeName ctx.judgeResp, ctx.max_rounds⟩

/-- council.py, pydantic model CouncilOpinion. -/
structure CouncilOpinion where
  agent_id : String
  opinion : String
  confidence : Rat
  key_points : List String
deriving DecidableEq

/-- council.py, pydantic model PeerRanking.  Pydantic types the rank
map as dict[str, int]. -/
structure PeerRanking where
  reviewer_id : String
  rankings : List (String × Int)
  reasoning : List (String × String)
deriving DecidableEq

/-- council.py, pydantic model CouncilSynthesis. -/
structure CouncilSynthesis where
  chairman_id : String
  final_answer : String
  consensus_level : Rat
  dissenting_views : List String
  key_insights : List String
deriving DecidableEq

/-- council.py, pydantic model CouncilResult. -/
structure CouncilResult where
  task : String
  opinions : List (String × CouncilOpinion)
  rankings : List PeerRanking
  synthesis : Option CouncilSynthesis
deriving DecidableEq

/-- The `scores` accumulation shared by
CouncilResult.get_aggregate_rankings and CouncilMode._summarize_rankings:
`if agent_id not in scores: scores[agent_id] = []` followed by append. -/
def addRank (scores : List (String × List Int)) (id : String) (rank : Int) :
    List (String × List Int) :=
  match scores with
  | [] => [(id, [rank])]
  | (k, l) :: rest =>
    if k == id then (k, l ++ [rank]) :: rest
    else (k, l) :: addRank rest id rank

/-- The double loop `for ranking in self.rankings: for agent_id, rank
in ranking.rankings.items(): ...` collecting every received rank. -/
def collectScores (rankings : List PeerRanking) : List (String × List Int) :=
  rankings.foldl (fun sc pr => pr.rankings.foldl (fun sc2 p => addRank sc2 p.1 p.2) sc) []

/-- council.py, CouncilResult.get_aggregate_rankings: per agent id,
the arithmetic mean of all ranks it received; ids never ranked do not
appear (no entry is ever created for them). -/
def CouncilResult.get_aggregate_rankings (res : CouncilResult) :
    List (String × Rat) :=
  (collectScores res.rankings).map
    (fun p => (p.1, mkRat p.2.sum p.2.length))

/-- council_mode.py, CouncilMode._create_anonymized_map label for the
i-th member: `chr(65 + i)` as a one-character string. -/
def anonLabel (i : Nat) : String :=
  String.mk [Char.ofNat (65 + i)]

/-- council_mode.py, CouncilMode._create_anonymized_map: dict
comprehension over `enumerate(self.members)` mapping each member name
to its label. -/
def createAnonymizedMap (members : List String) : List (String × String) :=
  pyDictOfList (members.enum.map (fun p => (p.2, anonLabel p.1)))

/-- council_mode.py, `reverse_anon_map = \x7bv: k for k, v in
anon_map.items()\x7d`. -/
def reverseAnonMap (m : List (String × String)) : List (String × String) :=
  pyDictOfList (m.map (fun p => (p.2, p.1)))

/-- Python `ranking.get(k, \x7b\x7d)` followed by `.items()`: the
entries of the nested dict, empty when the key is missing.  (A present
non-dict value would raise AttributeError in Python; no claim reaches
that case.) -/
def jGetObjItems (v : JVal) (k : String) : List (String × JVal) :=
  match jGet v k with
  | some (JVal.obj kvs) => kvs
  | _ => []

/-- Integer reading of a JSON rank value, as pydantic's dict[str, int]
field validation accepts it (a non-integral value would make pydantic
raise, aborting the run; no claim reaches that case, so such entries
are simply not representable here). -/
def jvalToIntOpt : JVal → Option Int
  | JVal.num q => if q.den = 1 then some q.num else none
  | _ => none

/-- council_mode.py, CouncilMode._deanonymize_ranking: map the anon
labels back through the reverse map (an unknown label falls through
unchanged, `reverse_map.get(anon_id, anon_id)`), and record the
reviewer as the literal "unknown". -/
def deanonymizeRanking (ranking : JVal) (reverseMap : List (String × String)) :
    PeerRanking :=
  let rankItems := jGetObjItems ranking "rankings"
  let reasonItems := jGetObjItems ranking "reasoning"
  let reverseGet := fun (a : String) => (pyGet reverseMap a).getD a
  ⟨"unknown",
    pyDictOfList (rankItems.filterMap
      (fun p => (jvalToIntOpt p.2).map (fun n => (reverseGet p.1, n)))),
    pyDictOfList (reasonItems.filterMap
      (fun p => match p.2 with
        | JVal.str s => some (reverseGet p.1, s)
        | _ => none))⟩

/-- council_mode.py, CouncilMode._get_opinion applied to the member's
response: an error response degrades to a zero-confidence opinion
carrying the bracketed error text. -/
def councilGetOpinion (name : String) (resp : AgentResponse) : CouncilOpinion :=
  if resp.is_error then
    ⟨name, errText resp, 0, []⟩
  else
    let parsed := councilParseJson resp.content
    ⟨name, jGetStrD parsed "opinion" resp.content,
      jGetNumD parsed "confidence" (mkRat 7 10), jGetStrListD parsed "key_points"⟩

/-- council_mode.py, CouncilMode._get_ranking applied to the member's
response: an error response yields the literal empty-rankings dict. -/
def councilGetRanking (resp : AgentResponse) : JVal :=
  if resp.is_error then
    JVal.obj [("rankings", JVal.obj []), ("reasoning", JVal.obj [])]
  else councilParseJson resp.content

/-- council_mode.py, CouncilMode._synthesize applied to the chairman's
response: an error response degrades to a zero-consensus synthesis
carrying the bracketed error text. -/
def councilSynthesize (chairmanName : String) (resp : AgentResponse) :
    CouncilSynthesis :=
  if resp.is_error then
    ⟨chairmanName, errText resp, 0, [], []⟩
  else
    let parsed := councilParseJson resp.content
    ⟨chairmanName, jGetStrD parsed "final_answer" resp.content,
      jGetNumD parsed "consensus_level" (mkRat 1 2),
      jGetStrListD parsed "dissenting_views", jGetStrListD parsed "key_insights"⟩

/-- Configuration of one council run: the ordered member names, the
chairman, and oracles giving each member's opinion and ranking
responses (by member index) plus the chairman's response. -/
structure CouncilCtx where
  task : String
  members : List String
  chairmanName : String
  opinionResp : Nat → AgentResponse
  rankingResp : Nat → AgentResponse
  chairmanResp : AgentResponse

/-- council_mode.py, CouncilMode.run: gather opinions, anonymize,
collect and de-anonymize one ranking per member (in member order), and
synthesize. -/
def councilRun (ctx : CouncilCtx) : CouncilResult :=
  let opinions := pyDictOfList (ctx.members.enum.map
    (fun p => (p.2, councilGetOpinion p.2 (ctx.opinionResp p.1))))
  let anonMap := createAnonymizedMap ctx.members
  let revMap := reverseAnonMap anonMap
  let rankings := ctx.members.enum.map
    (fun p => deanonymizeRanking (councilGetRanking (ctx.rankingResp p.1)) revMap)
  ⟨ctx.task, opinions, rankings,
    some (councilSynthesize ctx.chairmanName ctx.chairmanResp)⟩

/-- A successful agent response with the given content. -/
def okResp (c : String) : AgentResponse :=
  ⟨"agent", "council_member", c, none, []⟩

/-- A failed agent response carrying the given error message in its
metadata. -/
def errResp (m : String) : AgentResponse :=
  ⟨"agent", "council_member", "", none, [("error", some m)]⟩

/-- Key lookup for the error entry, stated on a raw metadata list. -/
lemma findError_iff (l : List (String × Option String))
    (hn : (l.map Prod.fst).Nodup) :
    (match l.find? (fun p : String × Option String => p.1 == "error") with
     | some p => p.2
     | none => none).isSome = true ↔ ∃ s, ("error", some s) ∈ l := by
  induction l with
  | nil => simp
  | cons hd tl ih =>
    obtain ⟨k, v⟩ := hd
    simp only [List.map_cons, List.nodup_cons, List.mem_map] at hn
    by_cases hk : k = "error"
    · subst hk
      rw [List.find?_cons_of_pos _ (by simp)]
      constructor
      · intro hv
        obtain ⟨s, hs⟩ := Option.isSome_iff_exists.mp hv
        exact ⟨s, by rw [show v = some s from hs]; exact List.mem_cons_self _ _⟩
      · intro ⟨s, hs⟩
        rcases List.mem_cons.mp hs with h | h
        · obtain ⟨h1, h2⟩ := Prod.mk.injEq .. ▸ h
          simp [h2.symm]
        · exact absurd ⟨("error", some s), h, rfl⟩ hn.1
    · rw [List.find?_cons_of_neg _ (by simp [hk])]
      rw [ih hn.2]
      constructor
      · intro ⟨s, hs⟩
        exact ⟨s, List.mem_cons_of_mem _ hs⟩
      · intro ⟨s, hs⟩
        rcases List.mem_cons.mp hs with h | h
        · exact absurd (congrArg Prod.fst h).symm hk
        · exact ⟨s, h⟩

/-- Claim C9 (amended): for a normalized response whose metadata keys
are distinct (as in a Python dict), `is_error` is true iff the
metadata holds an "error" key with a non-None value — the stored value
does matter exactly to the extent of being None or not — and
`is_error` depends only on the metadata, never on the content. -/
theorem c9_is_error_iff (r : AgentResponse)
    (hn : (r.metadata.map Prod.fst).Nodup) :
    (r.is_error = true ↔ ∃ s, ("error", some s) ∈ r.metadata) ∧
    ∀ r' : AgentResponse, r'.metadata = r.metadata → r'.is_error = r.is_error := by
  constructor
  · exact findError_iff r.metadata hn
  · intro r' h
    simp [AgentResponse.is_error, AgentResponse.metaError, h]

/-- A response whose metadata stores None under the "error" key. -/
def respErrNone : AgentResponse :=
  ⟨"claude", "producer", "fine content", none, [("error", none)]⟩

/-- Claim C9, counterexample: a metadata map that contains the "error"
key (with stored value None) while `is_error` is false, refuting
"is_error is true iff the metadata map contains an error key,
regardless of the value stored under it". -/
theorem c9_counterexample :
    ("error", (none : Option String)) ∈ respErrNone.metadata ∧
    respErrNone.is_error = false := by
  exact ⟨by simp [respErrNone], rfl⟩

/-- A response with a non-None error entry, used to instantiate the
amended C9 theorem. -/
def respErrSome : AgentResponse :=
  ⟨"claude", "producer", "x", none, [("error", some "timeout")]⟩

/-- Claim C9, witness: the amended theorem applied at a concrete
response whose metadata holds a real error message. -/
theorem c9_witness :
    respErrSome.is_error = true ↔
      ∃ s, ("error", some s) ∈ respErrSome.metadata :=
  (c9_is_error_iff respErrSome (by decide)).1

/-- Claim C10: every PeerRanking in a council run's result records the
literal reviewer id "unknown"; the producing member's identity is
never kept. -/
theorem c10_reviewer_unknown (ctx : CouncilCtx) (pr : PeerRanking)
    (h : pr ∈ (councilRun ctx).rankings) : pr.reviewer_id = "unknown" := by
  have hx : (councilRun ctx).rankings = ctx.members.enum.map
      (fun p => deanonymizeRanking (councilGetRanking (ctx.rankingResp p.1))
        (reverseAnonMap (createAnonymizedMap ctx.members))) := rfl
  rw [hx] at h
  obtain ⟨p, hp, rfl⟩ := List.mem_map.mp h
  rfl

/-- A two-member council whose agents all fail. -/
def ctxC10 : CouncilCtx :=
  ⟨"task", ["m1", "m2"], "m1", fun _ => errResp "down", fun _ => errResp "down",
    errResp "down"⟩

/-- Claim C10, witness: the theorem applied to a concrete ranking of a
concrete council run. -/
theorem c10_witness : PeerRanking.reviewer_id ⟨"unknown", [], []⟩ = "unknown" :=
  c10_reviewer_unknown ctxC10 ⟨"unknown", [], []⟩ (by decide)

/-- The deliberation run in which every review invocation errors: the
loop never assigns the `feedback` local, and the final read of it
raises. -/
def ctxC3 : DelibCtx :=
  ⟨"producer", "reviewer", 2, mkRat 17 20, okResp "v1",
    fun _ => errResp "reviewer unavailable", fun _ => okResp "resp"⟩

/-- Claim C3 (code bug evaluation): with max_rounds=2 and the round-2
reviewer invocation failing, no review ever completes and `run`
raises UnboundLocalError at its final return instead of returning
status "max_rounds" with a null agreement_level. -/
theorem c3_unbound_local :
    delibRun ctxC3 = Except.error "UnboundLocalError: feedback" := rfl

/-- Claim C5: no single agent error aborts a council or debate
session; each stage degrades the failed participant's contribution to
its sentinel and the (total) run functions still complete: an opinion
error yields confidence 0 with the bracketed error text, a ranking
error yields the empty ranking (and an empty de-anonymized
PeerRanking), a chairman error a zero-consensus synthesis, a judge
error the "pro"/0.5/0.5 judgment, and debate opening/rebuttal errors
zero-confidence bracketed-error arguments. -/
theorem c5_error_degradation (name chairman judge pos : String)
    (currentRound : Nat) (resp : AgentResponse)
    (revMap : List (String × String)) (h : resp.is_error = true) :
    councilGetOpinion name resp = ⟨name, errText resp, 0, []⟩ ∧
    councilGetRanking resp =
      JVal.obj [("rankings", JVal.obj []), ("reasoning", JVal.obj [])] ∧
    deanonymizeRanking (councilGetRanking resp) revMap = ⟨"unknown", [], []⟩ ∧
    councilSynthesize chairman resp = ⟨chairman, errText resp, 0, [], []⟩ ∧
    debateJudgment judge resp =
      ⟨judge, "pro", errText resp, mkRat 1 2, mkRat 1 2, []⟩ ∧
    openingArgument name pos resp = ⟨name, pos, 1, errText resp, [], 0⟩ ∧
    rebuttalArgument name pos currentRound resp =
      ⟨name, pos, currentRound, errText resp, [], 0⟩ := by
  refine ⟨?_, ?_, ?_, ?_, ?_, ?_, ?_⟩ <;>
    simp [councilGetOpinion, councilGetRanking, deanonymizeRanking,
      councilSynthesize, debateJudgment, openingArgument, rebuttalArgument,
      jGetObjItems, jGet, pyGet, pyDictOfList, h]

/-- Claim C5, witness: the degradation theorem applied to a concrete
failed response. -/
theorem c5_witness :
    councilGetOpinion "m1" (errResp "boom") =
      ⟨"m1", "[Error: boom]", 0, []⟩ ∧
    deanonymizeRanking (councilGetRanking (errResp "boom")) [("A", "m1")] =
      ⟨"unknown", [], []⟩ ∧
    debateJudgment "judge" (errResp "boom") =
      ⟨"judge", "pro", "[Error: boom]", mkRat 1 2, mkRat 1 2, []⟩ := by
  have h := c5_error_degradation "m1" "chair" "judge" "pro" 2 (errResp "boom")
    [("A", "m1")] (by decide)
  exact ⟨h.1, h.2.2.1, h.2.2.2.2.1⟩

/-- Lookup on an empty dict. -/
lemma pyGet_nil {α : Type} (k : String) : pyGet ([] : List (String × α)) k = none := rfl

/-- Lookup steps through a cons cell. -/
lemma pyGet_cons {α : Type} (k' k : String) (v : α) (rest : List (String × α)) :
    pyGet ((k', v) :: rest) k = if k' = k then some v else pyGet rest k := by
  by_cases h : k' = k
  · simp [pyGet, List.find?_cons_of_pos, h]
  · simp only [pyGet]
    rw [List.find?_cons_of_neg _ (by simp [h])]
    simp [h]

/-- All ranks a given id receives, in reading order, across a list of
peer rankings (the declarative counterpart of the `scores` loop). -/
def ranksReceived (rankings : List PeerRanking) (id : String) : List Int :=
  ((rankings.map (fun pr => pr.rankings)).flatten).filterMap
    (fun p => if p.1 = id then some p.2 else none)

/-- Accumulator view of the scores lookup: appending newly received
ranks to what an id already had, where an id with no entry and no new
ranks stays absent. -/
def optAcc (o : Option (List Int)) (new : List Int) : Option (List Int) :=
  if new = [] then o else some (o.getD [] ++ new)

/-- Appending twice accumulates. -/
lemma optAcc_optAcc (o : Option (List Int)) (a b : List Int) :
    optAcc (optAcc o a) b = optAcc o (a ++ b) := by
  rcases a with _ | ⟨x, a⟩
  · simp [optAcc]
  · rcases b with _ | ⟨y, b⟩
    · simp [optAcc]
    · simp [optAcc]

/-- Effect of one `addRank` on a lookup. -/
lemma pyGet_addRank (sc : List (String × List Int)) (id' id : String) (rk : Int) :
    pyGet (addRank sc id' rk) id =
      if id' = id then some ((pyGet sc id).getD [] ++ [rk]) else pyGet sc id := by
  induction sc with
  | nil =>
    by_cases h : id' = id <;> simp [addRank, pyGet_cons, pyGet_nil, h]
  | cons hd rest ih =>
    obtain ⟨k, l⟩ := hd
    by_cases hk : k = id'
    · subst hk
      rw [show addRank ((k, l) :: rest) k rk = (k, l ++ [rk]) :: rest by
        simp [addRank]]
      by_cases h : k = id <;> simp [pyGet_cons, h]
    · rw [show addRank ((k, l) :: rest) id' rk = (k, l) :: addRank rest id' rk by
        simp [addRank, hk]]
      by_cases h : k = id
      · subst h
        have hki : ¬ id' = k := fun hh => hk hh.symm
        simp [pyGet_cons, hki]
      · simp [pyGet_cons, h, ih]

/-- Ranks contributed by a single ranking's items, in item order. -/
def itemRanks (items : List (String × Int)) (id : String) : List Int :=
  items.filterMap (fun p => if p.1 = id then some p.2 else none)

/-- Folding one ranking's items into the scores accumulates exactly
the ranks that ranking gives the id. -/
lemma pyGet_foldl_items (items : List (String × Int))
    (sc : List (String × List Int)) (id : String) :
    pyGet (items.foldl (fun sc2 p => addRank sc2 p.1 p.2) sc) id =
      optAcc (pyGet sc id) (itemRanks items id) := by
  induction items generalizing sc with
  | nil => simp [itemRanks, optAcc]
  | cons hd rest ih =>
    obtain ⟨k, rk⟩ := hd
    rw [List.foldl_cons, ih]
    by_cases h : k = id
    · subst h
      have h1 : pyGet (addRank sc k rk) k = some ((pyGet sc k).getD [] ++ [rk]) := by
        rw [pyGet_addRank]; simp
      rw [h1]
      have h2 : itemRanks ((k, rk) :: rest) k = rk :: itemRanks rest k := by
        simp [itemRanks]
      rw [h2]
      rcases hrest : itemRanks rest k with _ | ⟨x, xs⟩
      · simp [optAcc]
      · simp [optAcc]
    · have h1 : pyGet (addRank sc k rk) id = pyGet sc id := by
        rw [pyGet_addRank]; simp [h]
      have h2 : itemRanks ((k, rk) :: rest) id = itemRanks rest id := by
        simp [itemRanks, h]
      rw [h1, h2]

/-- Folding a list of rankings into the scores accumulates all ranks
the id receives across them. -/
lemma pyGet_foldl_rankings (rs : List PeerRanking)
    (sc : List (String × List Int)) (id : String) :
    pyGet (rs.foldl
      (fun sc pr => pr.rankings.foldl (fun sc2 p => addRank sc2 p.1 p.2) sc) sc) id =
      optAcc (pyGet sc id) (ranksReceived rs id) := by
  induction rs generalizing sc with
  | nil => simp [ranksReceived, optAcc]
  | cons pr rest ih =>
    rw [List.foldl_cons, ih, pyGet_foldl_items]
    rw [optAcc_optAcc]
    have : ranksReceived (pr :: rest) id =
        itemRanks pr.rankings id ++ ranksReceived rest id := by
      simp [ranksReceived, itemRanks, List.filterMap_append]
    rw [this]

/-- Lookup after mapping the values of a string-keyed list. -/
lemma pyGet_map_val {α β : Type} (f : α → β) (l : List (String × α)) (k : String) :
    pyGet (l.map (fun p => (p.1, f p.2))) k = (pyGet l k).map f := by
  induction l with
  | nil => simp [pyGet_nil]
  | cons hd rest ih =>
    obtain ⟨k', v⟩ := hd
    by_cases h : k' = k <;> simp [pyGet_cons, h, ih]

/-- Claim C7: the aggregate ranking holds, for exactly the ids that
received at least one rank, the arithmetic mean of all ranks the id
received across all rankings; and on the two-reviewer example
rankings A=(x:1, y:2), B=(x:2, y:1) it yields x=1.5 and y=1.5. -/
theorem c7_aggregate_mean :
    (∀ (res : CouncilResult) (id : String),
      pyGet res.get_aggregate_rankings id =
        (match ranksReceived res.rankings id with
         | [] => none
         | l => some (mkRat l.sum l.length))) ∧
    CouncilResult.get_aggregate_rankings
        ⟨"t", [], [⟨"A", [("x", 1), ("y", 2)], []⟩, ⟨"B", [("x", 2), ("y", 1)], []⟩],
          none⟩ =
      [("x", mkRat 3 2), ("y", mkRat 3 2)] := by
  constructor
  · intro res id
    rw [show res.get_aggregate_rankings =
      (collectScores res.rankings).map (fun p => (p.1, mkRat p.2.sum p.2.length))
      from rfl]
    rw [pyGet_map_val (fun l2 : List Int => mkRat l2.sum l2.length)]
    rw [show collectScores res.rankings = res.rankings.foldl
      (fun sc pr => pr.rankings.foldl (fun sc2 p => addRank sc2 p.1 p.2) sc) []
      from rfl]
    rw [pyGet_foldl_rankings]
    rcases h : ranksReceived res.rankings id with _ | ⟨x, xs⟩
    · simp [optAcc, pyGet_nil]
    · simp [optAcc, pyGet_nil]
  · rfl

/-- Upsert of a fresh key appends at the end (Python dict insertion
order). -/
lemma pyUpsert_of_not_mem {α : Type} (d : List (String × α)) (k : String) (v : α)
    (h : k ∉ d.map Prod.fst) : pyUpsert d k v = d ++ [(k, v)] := by
  induction d with
  | nil => rfl
  | cons hd rest ih =>
    obtain ⟨k', v'⟩ := hd
    simp only [List.map_cons, List.mem_cons] at h
    push_neg at h
    have hne : (k' == k) = false := beq_eq_false_iff_ne.mpr (fun hh => h.1 hh.symm)
    simp [pyUpsert, hne, ih h.2]

/-- Building a dict from pairs with distinct keys, starting from a
prefix, just appends the pairs. -/
lemma foldl_upsert_of_nodup {α : Type} (l : List (String × α)) :
    ∀ d : List (String × α), ((d ++ l).map Prod.fst).Nodup →
      l.foldl (fun d p => pyUpsert d p.1 p.2) d = d ++ l := by
  induction l with
  | nil => intro d hn; simp
  | cons hd rest ih =>
    intro d hn
    obtain ⟨k, v⟩ := hd
    have hk : k ∉ d.map Prod.fst := by
      intro hmem
      rw [List.map_append] at hn
      exact (List.nodup_append.mp hn).2.2 hmem (by simp)
    rw [List.foldl_cons, pyUpsert_of_not_mem d k v hk]
    rw [ih (d ++ [(k, v)]) (by simpa using hn)]
    simp

/-- Building a dict from pairs with distinct keys reproduces the
pairs exactly. -/
lemma pyDictOfList_of_nodup {α : Type} (l : List (String × α))
    (hn : (l.map Prod.fst).Nodup) : pyDictOfList l = l := by
  have := foldl_upsert_of_nodup l [] (by simpa using hn)
  simpa [pyDictOfList] using this

/-- Lookup of a present key in a dict with distinct keys. -/
lemma pyGet_of_mem {α : Type} (l : List (String × α))
    (hn : (l.map Prod.fst).Nodup) (k : String) (v : α) (h : (k, v) ∈ l) :
    pyGet l k = some v := by
  induction l with
  | nil => cases h
  | cons hd rest ih =>
    obtain ⟨k', v'⟩ := hd
    simp only [List.map_cons, List.nodup_cons, List.mem_map] at hn
    rcases List.mem_cons.mp h with hh | hh
    · obtain ⟨h1, h2⟩ := Prod.mk.injEq .. ▸ hh
      rw [pyGet_cons]
      simp [h1.symm, h2.symm]
    · have hne : ¬ k' = k := by
        intro he
        exact hn.1 ⟨(k, v), hh, by simp [he]⟩
      rw [pyGet_cons]
      simp only [hne, if_false]
      exact ih hn.2 hh

/-- Keys of an upsert come from the inserted key or the old dict. -/
lemma pyUpsert_keys_subset {α : Type} (d : List (String × α)) (k : String)
    (v : α) (x : String) (h : x ∈ (pyUpsert d k v).map Prod.fst) :
    x = k ∨ x ∈ d.map Prod.fst := by
  induction d with
  | nil => simpa [pyUpsert] using h
  | cons hd rest ih =>
    obtain ⟨k', v'⟩ := hd
    by_cases he : k' = k
    · subst he
      rw [show pyUpsert ((k', v') :: rest) k' v = (k', v) :: rest by
        simp [pyUpsert]] at h
      rw [List.map_cons] at h
      rcases List.mem_cons.mp h with h1 | h1
      · exact Or.inl h1
      · exact Or.inr (List.mem_cons_of_mem _ h1)
    · rw [show pyUpsert ((k', v') :: rest) k v = (k', v') :: pyUpsert rest k v by
        simp [pyUpsert, beq_eq_false_iff_ne.mpr he]] at h
      rw [List.map_cons] at h
      rcases List.mem_cons.mp h with h1 | h1
      · exact Or.inr (by rw [List.map_cons, h1]; exact List.mem_cons_self _ _)
      · rcases ih h1 with h2 | h2
        · exact Or.inl h2
        · exact Or.inr (by rw [List.map_cons]; exact List.mem_cons_of_mem _ h2)

/-- Keys of the dict built by folding upserts over pairs come from the
starting dict or the pairs. -/
lemma foldl_upsert_keys_subset {α : Type} (l : List (String × α)) (x : String) :
    ∀ d : List (String × α),
      x ∈ (l.foldl (fun d p => pyUpsert d p.1 p.2) d).map Prod.fst →
      x ∈ d.map Prod.fst ∨ x ∈ l.map Prod.fst := by
  induction l with
  | nil => intro d hd; exact Or.inl hd
  | cons hd rest ih =>
    intro d hmem
    obtain ⟨k, v⟩ := hd
    rw [List.foldl_cons] at hmem
    rcases ih (pyUpsert d k v) hmem with h1 | h1
    · rcases pyUpsert_keys_subset d k v x h1 with h2 | h2
      · exact Or.inr (by rw [List.map_cons]; exact h2 ▸ List.mem_cons_self _ _)
      · exact Or.inl h2
    · exact Or.inr (by rw [List.map_cons]; exact List.mem_cons_of_mem _ h1)

/-- Keys of a built dict come from the input pairs. -/
lemma pyDictOfList_keys_subset {α : Type} (l : List (String × α)) (x : String)
    (h : x ∈ (pyDictOfList l).map Prod.fst) : x ∈ l.map Prod.fst := by
  rcases foldl_upsert_keys_subset l x [] h with h1 | h1
  · cases h1
  · exact h1

/-- Distinctness of the A, B, C, ... labels over the fixed 26-letter
alphabet. -/
lemma anonLabel_inj :
    ∀ i, i < 26 → ∀ j, j < 26 → anonLabel i = anonLabel j → i = j := by decide

/-- Claim C6: for members with distinct names (within the A..Z label
alphabet), the anonymization map lists the i-th member with label
`chr(65+i)` in input order, the labels are pairwise distinct, reversal
recovers every original member id exactly, and de-anonymizing a
ranking whose keys are all assigned labels mentions only real member
ids. -/
theorem c6_anonymize_roundtrip (members : List String) (hn : members.Nodup)
    (hlen : members.length ≤ 26) :
    createAnonymizedMap members =
      members.enum.map (fun p => (p.2, anonLabel p.1)) ∧
    ((createAnonymizedMap members).map Prod.snd).Nodup ∧
    (∀ n ∈ members, ∃ lab, pyGet (createAnonymizedMap members) n = some lab ∧
      pyGet (reverseAnonMap (createAnonymizedMap members)) lab = some n) ∧
    (∀ ranking : JVal,
      (∀ k ∈ (jGetObjItems ranking "rankings").map Prod.fst,
        k ∈ (createAnonymizedMap members).map Prod.snd) →
      ∀ k' ∈ (deanonymizeRanking ranking
          (reverseAnonMap (createAnonymizedMap members))).rankings.map Prod.fst,
        k' ∈ members) := by
  have hkeys : ((members.enum.map
      (fun p : Nat × String => (p.2, anonLabel p.1))).map Prod.fst) = members := by
    rw [List.map_map]
    have h1 : (Prod.fst ∘ fun p : Nat × String => (p.2, anonLabel p.1)) =
        Prod.snd := rfl
    rw [h1]
    simp
  have hvals : ((members.enum.map
      (fun p : Nat × String => (p.2, anonLabel p.1))).map Prod.snd) =
      (List.range members.length).map anonLabel := by
    rw [List.map_map]
    have h1 : (Prod.snd ∘ fun p : Nat × String => (p.2, anonLabel p.1)) =
        anonLabel ∘ Prod.fst := rfl
    rw [h1, ← List.map_map]
    simp
  have hmapeq : createAnonymizedMap members =
      members.enum.map (fun p => (p.2, anonLabel p.1)) :=
    pyDictOfList_of_nodup _ (by rw [hkeys]; exact hn)
  have hlabnd : ((members.enum.map
      (fun p : Nat × String => (p.2, anonLabel p.1))).map Prod.snd).Nodup := by
    rw [hvals]
    refine List.Nodup.map_on ?_ (List.nodup_range _)
    intro i hi j hj hij
    exact anonLabel_inj i (lt_of_lt_of_le (List.mem_range.mp hi) hlen) j
      (lt_of_lt_of_le (List.mem_range.mp hj) hlen) hij
  have hentry : ∀ i, ∀ hi : i < members.length,
      (members[i], anonLabel i) ∈ members.enum.map
        (fun p : Nat × String => (p.2, anonLabel p.1)) := by
    intro i hi
    have hlt : i < (members.enum.map
        (fun p : Nat × String => (p.2, anonLabel p.1))).length := by simp [hi]
    have h1 : (members.enum.map
        (fun p : Nat × String => (p.2, anonLabel p.1))).get ⟨i, hlt⟩ =
        (members[i], anonLabel i) := by simp
    have h2 := List.get_mem (members.enum.map
      (fun p : Nat × String => (p.2, anonLabel p.1))) i hlt
    rw [h1] at h2
    exact h2
  have hrevkeys : (((members.enum.map
      (fun p : Nat × String => (p.2, anonLabel p.1))).map
        (fun p => (p.2, p.1))).map Prod.fst) =
      ((members.enum.map
        (fun p : Nat × String => (p.2, anonLabel p.1))).map Prod.snd) := by
    simp only [List.map_map]
    rfl
  have hreveq : reverseAnonMap (createAnonymizedMap members) =
      (members.enum.map (fun p : Nat × String => (p.2, anonLabel p.1))).map
        (fun p => (p.2, p.1)) := by
    rw [reverseAnonMap, hmapeq]
    exact pyDictOfList_of_nodup _ (by rw [hrevkeys]; exact hlabnd)
  refine ⟨hmapeq, by rw [hmapeq]; exact hlabnd, ?_, ?_⟩
  · intro n hmem
    obtain ⟨i, hi, rfl⟩ := List.mem_iff_getElem.mp hmem
    refine ⟨anonLabel i, ?_, ?_⟩
    · rw [hmapeq]
      exact pyGet_of_mem _ (by rw [hkeys]; exact hn) _ _ (hentry i hi)
    · rw [hreveq]
      refine pyGet_of_mem _ (by rw [hrevkeys]; exact hlabnd) _ _ ?_
      exact List.mem_map.mpr ⟨(members[i], anonLabel i), hentry i hi, rfl⟩
  · intro ranking hk k' hk'
    have hde : (deanonymizeRanking ranking
        (reverseAnonMap (createAnonymizedMap members))).rankings =
        pyDictOfList ((jGetObjItems ranking "rankings").filterMap
          (fun p => (jvalToIntOpt p.2).map
            (fun nn => ((pyGet (reverseAnonMap (createAnonymizedMap members))
              p.1).getD p.1, nn)))) := rfl
    rw [hde] at hk'
    have hk2 := pyDictOfList_keys_subset _ _ hk'
    obtain ⟨pair, hpair, rfl⟩ := List.mem_map.mp hk2
    obtain ⟨p, hp, hg⟩ := List.mem_filterMap.mp hpair
    cases hv : jvalToIntOpt p.2 with
    | none => rw [hv] at hg; cases hg
    | some n0 =>
      rw [hv] at hg
      simp only [Option.map_some', Option.some.injEq] at hg
      have hmemlab : p.1 ∈ (createAnonymizedMap members).map Prod.snd :=
        hk p.1 (List.mem_map_of_mem _ hp)
      rw [hmapeq] at hmemlab
      obtain ⟨q, hq, hq2⟩ := List.mem_map.mp hmemlab
      have hget : pyGet (reverseAnonMap (createAnonymizedMap members)) p.1 =
          some q.1 := by
        rw [hreveq]
        refine pyGet_of_mem _ (by rw [hrevkeys]; exact hlabnd) _ _ ?_
        exact List.mem_map.mpr ⟨q, hq, by rw [hq2]⟩
      have hql : q.1 ∈ members := by
        rw [← hkeys]
        exact List.mem_map_of_mem _ hq
      rw [← hg]
      simpa [hget] using hql

/-- Claim C6, witness: the round-trip instantiated on a concrete
three-member council. -/
theorem c6_witness :
    ∃ lab, pyGet (createAnonymizedMap ["claude", "codex", "gemini"]) "codex" =
        some lab ∧
      pyGet (reverseAnonMap (createAnonymizedMap ["claude", "codex", "gemini"]))
        lab = some "codex" :=
  (c6_anonymize_roundtrip ["claude", "codex", "gemini"] (by decide)
    (by decide)).2.2.1 "codex" (by decide)

/-- States reachable by DeliberationMode.run at the top of a loop
iteration: round 2 starts from the recorded initial producer turn, and
each non-terminating, non-raising iteration hands its successor state
to the next round. -/
inductive DelibReaches (ctx : DelibCtx) : Nat → DelibState → Prop where
  | init : ctx.producerInit.is_error = false →
      DelibReaches ctx 2 ⟨ctx.producerInit,
        [⟨1, ctx.producerName, "initial", ctx.producerInit.content, none⟩], none⟩
  | step {r : Nat} {st st' : DelibState} : DelibReaches ctx r st →
      r ≤ ctx.max_rounds → delibStep ctx r st = Except.ok (Sum.inr st') →
      DelibReaches ctx (r + 1) st'

/-- A reachable loop state determines the run: the run equals the loop
restarted there with the remaining fuel. -/
lemma delibReaches_run {ctx : DelibCtx} {r : Nat} {st : DelibState}
    (h : DelibReaches ctx r st) :
    delibRun ctx = delibLoop ctx (ctx.max_rounds + 1 - r) r st := by
  induction h with
  | init herr =>
    have hfuel : ctx.max_rounds + 1 - 2 = ctx.max_rounds - 1 := by omega
    rw [hfuel]
    simp [delibRun, herr]
  | @step r' st1 st2 hr hle hstep ih =>
    rw [ih]
    have hfuel : ctx.max_rounds + 1 - r' = Nat.succ (ctx.max_rounds - r') := by
      omega
    rw [hfuel, delibLoop, hstep]
    have h2 : ctx.max_rounds - r' = ctx.max_rounds + 1 - (r' + 1) := by omega
    rw [h2]

/-- A failed review invocation leaves the loop state untouched (the
`continue` before anything is recorded). -/
lemma delibStep_review_error {ctx : DelibCtx} {r : Nat} {st : DelibState}
    (h1 : (ctx.reviewer r).is_error = true) :
    delibStep ctx r st = Except.ok (Sum.inr st) := by
  simp [delibStep, h1]

/-- A failed producer invocation in a non-raising, non-consensus round
skips the rest of the round, but only after the `producer_response`
variable has been reassigned to the error response. -/
lemma delibStep_producer_error {ctx : DelibCtx} {r : Nat} {st : DelibState}
    (h1 : (ctx.reviewer r).is_error = false)
    (hchk : reviewSummaryCheck (delibParseJson (ctx.reviewer r).content) =
      Except.ok ())
    (h2 : ¬ (pyTruthyOpt (delibParseJson (ctx.reviewer r).content) = true ∧
      ctx.consensus_threshold ≤
        agreementOf ((delibParseJson (ctx.reviewer r).content).getD JVal.null)))
    (h3 : (ctx.producer r).is_error = true) :
    delibStep ctx r st = Except.ok (Sum.inr ⟨ctx.producer r,
      st.history ++ [⟨r, ctx.reviewerName, "review", (ctx.reviewer r).content,
        delibParseJson (ctx.reviewer r).content⟩],
      some (delibParseJson (ctx.reviewer r).content)⟩) := by
  simp [delibStep, h1, hchk, h2, h3]

/-- A fully successful, non-raising, non-consensus round records the
review and the producer response and carries the new producer response
forward. -/
lemma delibStep_full {ctx : DelibCtx} {r : Nat} {st : DelibState}
    (h1 : (ctx.reviewer r).is_error = false)
    (hchk : reviewSummaryCheck (delibParseJson (ctx.reviewer r).content) =
      Except.ok ())
    (h2 : ¬ (pyTruthyOpt (delibParseJson (ctx.reviewer r).content) = true ∧
      ctx.consensus_threshold ≤
        agreementOf ((delibParseJson (ctx.reviewer r).content).getD JVal.null)))
    (h3 : (ctx.producer r).is_error = false)
    (hrd : responseSummaryCheck (delibParseJson (ctx.producer r).content) =
      Except.ok ()) :
    delibStep ctx r st = Except.ok (Sum.inr ⟨ctx.producer r,
      (st.history ++ [⟨r, ctx.reviewerName, "review", (ctx.reviewer r).content,
        delibParseJson (ctx.reviewer r).content⟩]) ++
        [⟨r, ctx.producerName, "response", (ctx.producer r).content,
          delibParseJson (ctx.producer r).content⟩],
      some (delibParseJson (ctx.reviewer r).content)⟩) := by
  simp [delibStep, h1, hchk, h2, h3, hrd]

/-- A non-terminating, non-raising loop iteration only adds turns of
the current round to the history. -/
lemma delibStep_inr_history {ctx : DelibCtx} {r : Nat} {st st' : DelibState}
    (h : delibStep ctx r st = Except.ok (Sum.inr st')) :
    ∀ t ∈ st'.history, t ∈ st.history ∨ t.round = r := by
  by_cases h1 : (ctx.reviewer r).is_error = true
  · rw [delibStep_review_error h1] at h
    cases h
    exact fun t ht => Or.inl ht
  · have h1' : (ctx.reviewer r).is_error = false := by simpa using h1
    cases hchk : reviewSummaryCheck (delibParseJson (ctx.reviewer r).content) with
    | error e =>
      have hcrash : delibStep ctx r st = Except.error e := by
        simp [delibStep, h1', hchk]
      rw [hcrash] at h
      cases h
    | ok u =>
      cases u
      by_cases h2 : (pyTruthyOpt (delibParseJson (ctx.reviewer r).content) = true ∧
        ctx.consensus_threshold ≤
          agreementOf ((delibParseJson (ctx.reviewer r).content).getD JVal.null))
      · simp [delibStep, h1', hchk, h2] at h
      · by_cases h3 : (ctx.producer r).is_error = true
        · rw [delibStep_producer_error h1' hchk h2 h3] at h
          cases h
          intro t ht
          rcases List.mem_append.mp ht with hh | hh
          · exact Or.inl hh
          · simp at hh
            exact Or.inr (by rw [hh])
        · have h3' : (ctx.producer r).is_error = false := by simpa using h3
          cases hrd : responseSummaryCheck
              (delibParseJson (ctx.producer r).content) with
          | error e =>
            have hcrash : delibStep ctx r st = Except.error e := by
              simp [delibStep, h1', hchk, h2, h3', hrd]
            rw [hcrash] at h
            cases h
          | ok v =>
            cases v
            rw [delibStep_full h1' hchk h2 h3' hrd] at h
            cases h
            intro t ht
            rcases List.mem_append.mp ht with hh | hh
            · rcases List.mem_append.mp hh with hh2 | hh2
              · exact Or.inl hh2
              · simp at hh2
                exact Or.inr (by rw [hh2])
            · simp at hh
              exact Or.inr (by rw [hh])

/-- Every turn recorded in a reachable state belongs to an earlier
round. -/
lemma delibReaches_hist {ctx : DelibCtx} {r : Nat} {st : DelibState}
    (h : DelibReaches ctx r st) : ∀ t ∈ st.history, t.round < r := by
  induction h with
  | init herr =>
    intro t ht
    simp at ht
    rw [ht]
    show (1 : Nat) < 2
    omega
  | step hr hle hstep ih =>
    intro t ht
    rcases delibStep_inr_history hstep t ht with h1 | h1
    · exact Nat.lt_succ_of_lt (ih t h1)
    · omega

/-- A review whose summary block does not raise and whose parsed
feedback carries an agreement_level at or above the threshold makes
the loop iteration return consensus immediately, with the review turn
appended and no producer turn. -/
lemma delibStep_consensus {ctx : DelibCtx} {r : Nat} {st : DelibState}
    {fb : JVal} {a : Rat}
    (herr : (ctx.reviewer r).is_error = false)
    (hfb : delibParseJson (ctx.reviewer r).content = some fb)
    (hchk : reviewSummaryCheck (some fb) = Except.ok ())
    (ha : jGet fb "agreement_level" = some (JVal.num a))
    (hth : ctx.consensus_threshold ≤ a) :
    delibStep ctx r st = Except.ok (Sum.inl ⟨"consensus", r, some a,
      st.history ++ [⟨r, ctx.reviewerName, "review",
        (ctx.reviewer r).content, some fb⟩], none⟩) := by
  obtain ⟨kvs, rfl⟩ : ∃ kvs, fb = JVal.obj kvs := by
    cases fb with
    | obj kvs => exact ⟨kvs, rfl⟩
    | null => simp [jGet] at ha
    | bool b => simp [jGet] at ha
    | num q => simp [jGet] at ha
    | str s => simp [jGet] at ha
    | arr xs => simp [jGet] at ha
  have hne : kvs ≠ [] := by
    intro he
    subst he
    simp [jGet, pyGet] at ha
  have htr : pyTruthyOpt (some (JVal.obj kvs)) = true := by
    simp [pyTruthyOpt, pyTruthy, hne]
  have hag : agreementOf (JVal.obj kvs) = a := by
    simp [agreementOf, ha, pyNumVal]
  simp only [delibStep, herr, Bool.false_eq_true, if_false, hfb, hchk,
    Option.getD_some]
  rw [if_pos (by exact ⟨htr, by rw [hag]; exact hth⟩)]
  simp [hag]

/-- The consensus behavior claim C2 asserts, proven of the program
under the extra hypothesis the program forces: the round's
feedback-summary block (which runs first) does not raise.  Without
that hypothesis the program can raise instead of returning consensus
(see the C2 claim record). -/
theorem delibRun_consensus_of_checks (ctx : DelibCtx) (r : Nat)
    (st : DelibState) (fb : JVal) (a : Rat)
    (hreach : DelibReaches ctx r st) (hr : r ≤ ctx.max_rounds)
    (herr : (ctx.reviewer r).is_error = false)
    (hfb : delibParseJson (ctx.reviewer r).content = some fb)
    (hchk : reviewSummaryCheck (some fb) = Except.ok ())
    (ha : jGet fb "agreement_level" = some (JVal.num a))
    (hth : ctx.consensus_threshold ≤ a) :
    delibRun ctx = Except.ok ⟨"consensus", r, some a,
      st.history ++ [⟨r, ctx.reviewerName, "review",
        (ctx.reviewer r).content, some fb⟩], none⟩ ∧
    ∀ t ∈ st.history ++ [⟨r, ctx.reviewerName, "review",
        (ctx.reviewer r).content, some fb⟩],
      t.type = "response" → t.round < r := by
  constructor
  · rw [delibReaches_run hreach]
    have hfuel : ctx.max_rounds + 1 - r = Nat.succ (ctx.max_rounds - r) := by
      omega
    rw [hfuel, delibLoop, delibStep_consensus herr hfb hchk ha hth]
  · intro t ht htype
    rcases List.mem_append.mp ht with hh | hh
    · exact delibReaches_hist hreach t hh
    · simp at hh
      rw [hh] at htype
      simp at htype

/-- A deliberation whose reviewer agrees at 0.9 in round 2 against a
0.85 threshold, with well-formed (empty) feedback points. -/
def ctxC2 : DelibCtx :=
  ⟨"prod", "rev", 3, mkRat 17 20, okResp "v1",
    fun _ => okResp "\x7b\"agreement_level\": 0.9\x7d", fun _ => okResp "resp"⟩

/-- The consensus theorem exercised on the concrete round-2 consensus
run whose summary block is harmless. -/
lemma delibRun_consensus_example :
    delibRun ctxC2 = Except.ok ⟨"consensus", 2, some (mkRat 9 10),
      [⟨1, "prod", "initial", "v1", none⟩,
       ⟨2, "rev", "review", "\x7b\"agreement_level\": 0.9\x7d",
         some (JVal.obj [("agreement_level", JVal.num (mkRat 9 10))])⟩],
      none⟩ :=
  (delibRun_consensus_of_checks ctxC2 2
    ⟨ctxC2.producerInit,
      [⟨1, ctxC2.producerName, "initial", ctxC2.producerInit.content, none⟩], none⟩
    (JVal.obj [("agreement_level", JVal.num (mkRat 9 10))]) (mkRat 9 10)
    (DelibReaches.init rfl) (by decide) rfl rfl rfl rfl (by decide)).1

/-- A deliberation whose round-2 reviewer reports agreement 0.9, above
the 0.85 threshold, but formats one feedback point as a bare string
instead of a dict. -/
def ctxC2bad : DelibCtx :=
  ⟨"prod", "rev", 3, mkRat 17 20, okResp "v1",
    fun _ =>
      okResp "\x7b\"agreement_level\": 0.9, \"points\": [\"looks good\"]\x7d",
    fun _ => okResp "resp"⟩

/-- Claim C2 (code bug evaluation): the round-2 parsed feedback has
agreement_level 0.9, at or above the 0.85 threshold, yet run raises
AttributeError out of the feedback-summary block — `point.get` on the
string entry at deliberation_mode.py line 196, reached before the
consensus check at line 212 — instead of returning status
"consensus". -/
theorem c2_consensus_crash :
    delibRun ctxC2bad =
      Except.error "AttributeError: point has no attribute get" ∧
    delibParseJson (ctxC2bad.reviewer 2).content =
      some (JVal.obj [("agreement_level", JVal.num (mkRat 9 10)),
        ("points", JVal.arr [JVal.str "looks good"])]) ∧
    ctxC2bad.consensus_threshold ≤ mkRat 9 10 :=
  ⟨rfl, rfl, by decide⟩

/-- Claim C4 (amended): a producer error in round 1 is fatal with the
original message and an empty history; a reviewer error in a later
round leaves the loop state completely unchanged (same current
producer response); a producer error in a round at or after 2 — in a
round whose feedback-summary logging does not itself raise — records
the review turn, adds no response turn, does not terminate — but the
current producer response variable is reassigned to the error
response, so the next round reviews the error response's content
rather than the previous producer output. -/
theorem c4_fatal_vs_recovered :
    (∀ ctx : DelibCtx, ctx.producerInit.is_error = true →
      delibRun ctx =
        Except.ok ⟨"error", 1, none, [], ctx.producerInit.error_message⟩) ∧
    (∀ (ctx : DelibCtx) (r : Nat) (st : DelibState),
      (ctx.reviewer r).is_error = true →
      delibStep ctx r st = Except.ok (Sum.inr st)) ∧
    (∀ (ctx : DelibCtx) (r : Nat) (st : DelibState),
      (ctx.reviewer r).is_error = false →
      reviewSummaryCheck (delibParseJson (ctx.reviewer r).content) =
        Except.ok () →
      ¬ (pyTruthyOpt (delibParseJson (ctx.reviewer r).content) = true ∧
        ctx.consensus_threshold ≤
          agreementOf ((delibParseJson (ctx.reviewer r).content).getD JVal.null)) →
      (ctx.producer r).is_error = true →
      delibStep ctx r st = Except.ok (Sum.inr ⟨ctx.producer r,
        st.history ++ [⟨r, ctx.reviewerName, "review",
          (ctx.reviewer r).content, delibParseJson (ctx.reviewer r).content⟩],
        some (delibParseJson (ctx.reviewer r).content)⟩)) := by
  refine ⟨?_, ?_, ?_⟩
  · intro ctx h
    simp [delibRun, h]
  · intro ctx r st h
    exact delibStep_review_error h
  · intro ctx r st h1 hchk h2 h3
    exact delibStep_producer_error h1 hchk h2 h3

/-- A deliberation whose round-2 review is low-agreement and whose
producer then fails. -/
def ctxC4 : DelibCtx :=
  ⟨"prod", "rev", 3, mkRat 17 20, okResp "v1",
    fun _ => okResp "\x7b\"agreement_level\": 0.1\x7d", fun _ => errResp "boom"⟩

/-- The loop state entering round 2 of that run. -/
def stC4 : DelibState :=
  ⟨okResp "v1", [⟨1, "prod", "initial", "v1", none⟩], none⟩

/-- Claim C4, counterexample: after a producer error in round 2 the
loop continues, but the current producer response is the error
response (content ""), not the previous response "v1" — refuting "the
loop continues to the next round with the same current producer
response" for producer errors. -/
theorem c4_counterexample :
    delibStep ctxC4 2 stC4 = Except.ok (Sum.inr ⟨errResp "boom",
      [⟨1, "prod", "initial", "v1", none⟩,
       ⟨2, "rev", "review", "\x7b\"agreement_level\": 0.1\x7d",
         some (JVal.obj [("agreement_level", JVal.num (mkRat 1 10))])⟩],
      some (some (JVal.obj [("agreement_level", JVal.num (mkRat 1 10))]))⟩) ∧
    (errResp "boom").content = "" ∧ stC4.producerResp.content = "v1" ∧
    ("" : String) ≠ "v1" :=
  ⟨rfl, rfl, rfl, by decide⟩

/-- A deliberation whose initial producer invocation fails. -/
def ctxC4a : DelibCtx :=
  ⟨"prod", "rev", 3, mkRat 17 20, errResp "init down",
    fun _ => okResp "x", fun _ => okResp "x"⟩

/-- A deliberation whose round-2 review invocation fails. -/
def ctxC4b : DelibCtx :=
  ⟨"prod", "rev", 3, mkRat 17 20, okResp "v1",
    fun _ => errResp "rev down", fun _ => okResp "resp"⟩

/-- Claim C4, witness: the amended theorem applied at concrete runs
for each of its three cases. -/
theorem c4_witness :
    delibRun ctxC4a = Except.ok ⟨"error", 1, none, [], some "init down"⟩ ∧
    delibStep ctxC4b 2 stC4 = Except.ok (Sum.inr stC4) ∧
    delibStep ctxC4 2 stC4 = Except.ok (Sum.inr ⟨ctxC4.producer 2,
      stC4.history ++ [⟨2, ctxC4.reviewerName, "review",
        (ctxC4.reviewer 2).content, delibParseJson (ctxC4.reviewer 2).content⟩],
      some (delibParseJson (ctxC4.reviewer 2).content)⟩) :=
  ⟨c4_fatal_vs_recovered.1 ctxC4a rfl,
   c4_fatal_vs_recovered.2.1 ctxC4b 2 stC4 rfl,
   c4_fatal_vs_recovered.2.2 ctxC4 2 stC4 rfl rfl (by decide) rfl⟩

/-- A three-round debate in which every invocation succeeds. -/
def ctxC1 : DebateCtx :=
  ⟨"q?", "p-agent", "c-agent", "j-agent", 3, okResp "x", okResp "x",
    fun _ => okResp "x", fun _ => okResp "x", okResp "x"⟩

/-- Claim C1, counterexample: a max_rounds=3 debate with all
invocations succeeding produces round numbers [1,1,2,3,4,5] — because
each rebuttal's round is 1 + the max round so far and both rebuttals
of a loop iteration are appended in sequence — not [1,1,2,2,3,3]. -/
theorem c1_counterexample :
    Except.map (fun res => res.arguments.map (fun a => a.round_num))
        (debateRun ctxC1) = Except.ok [1, 1, 2, 3, 4, 5] ∧
    ctxC1.proOpening.is_error = false ∧ ctxC1.conOpening.is_error = false ∧
    (ctxC1.proRebuttal 2).is_error = false ∧
    (ctxC1.conRebuttal 2).is_error = false ∧
    (ctxC1.proRebuttal 3).is_error = false ∧
    (ctxC1.conRebuttal 3).is_error = false ∧
    ctxC1.judgeResp.is_error = false ∧
    ([1, 1, 2, 3, 4, 5] : List Nat) ≠ [1, 1, 2, 2, 3, 3] :=
  ⟨rfl, rfl, rfl, rfl, rfl, rfl, rfl, rfl, by decide⟩

/-- Claim C1 (amended): in every max_rounds=3 debate whose agent
invocations all succeed, the argument sequence alternates pro/con
starting pro with round numbers [1,1,2,3,4,5], and from the first
rebuttal on each argument's round number is 1 + the maximum round
number among all arguments recorded before it. -/
theorem c1_debate_rounds (ctx : DebateCtx) (h3 : ctx.max_rounds = 3)
    (hp : ctx.proOpening.is_error = false)
    (hc : ctx.conOpening.is_error = false)
    (hpr : ∀ r, (ctx.proRebuttal r).is_error = false)
    (hcr : ∀ r, (ctx.conRebuttal r).is_error = false) :
    Except.map (fun res => res.arguments.map (fun a => (a.position, a.round_num)))
        (debateRun ctx) =
      Except.ok [("pro", 1), ("con", 1), ("pro", 2), ("con", 3), ("pro", 4),
        ("con", 5)] ∧
    ∀ res, debateRun ctx = Except.ok res →
      ∀ i, 2 ≤ i → ∀ hi : i < res.arguments.length,
        (res.arguments.get ⟨i, hi⟩).round_num =
          maxRoundNum (res.arguments.take i) + 1 := by
  have hmain : Except.map
      (fun res => res.arguments.map (fun a => (a.position, a.round_num)))
        (debateRun ctx) =
      Except.ok [("pro", 1), ("con", 1), ("pro", 2), ("con", 3), ("pro", 4),
        ("con", 5)] := by
    simp [debateRun, debateLoop, openingArgument, rebuttalArgument,
      getLastArgument, maxRoundNum, Except.map, hp, hc, hpr 2, hpr 3, hcr 2,
      hcr 3, h3]
  refine ⟨hmain, ?_⟩
  intro res hres i h2 hi
  rw [hres] at hmain
  simp only [Except.map, Except.ok.injEq] at hmain
  have hrounds : res.arguments.map (fun a => a.round_num) = [1, 1, 2, 3, 4, 5] := by
    have := congrArg (List.map Prod.snd) hmain
    rw [List.map_map] at this
    exact this
  have hlen : res.arguments.length = 6 := by
    have := congrArg List.length hrounds
    simpa using this
  have hval : ∀ j, ∀ hj : j < res.arguments.length,
      (res.arguments.get ⟨j, hj⟩).round_num =
        ([1, 1, 2, 3, 4, 5] : List Nat).getD j 0 := by
    intro j hj
    have h1 : res.arguments[j]?.map (fun a => a.round_num) =
        ([1, 1, 2, 3, 4, 5] : List Nat)[j]? := by
      rw [← List.getElem?_map, hrounds]
    rw [List.getElem?_eq_getElem hj, Option.map_some'] at h1
    rw [List.get_eq_getElem]
    rw [List.getD_eq_getElem?_getD, ← h1]
    rfl
  have hmax : ∀ k, maxRoundNum (res.arguments.take k) =
      List.foldl (fun m n => max m n) 0 (([1, 1, 2, 3, 4, 5] : List Nat).take k) := by
    intro k
    have hmt : (res.arguments.take k).map (fun a => a.round_num) =
        ([1, 1, 2, 3, 4, 5] : List Nat).take k := by
      rw [← hrounds, List.map_take]
    rw [maxRoundNum, ← hmt, List.foldl_map]
  have hi6 : i < 6 := hlen ▸ hi
  rw [hval i hi, hmax i]
  interval_cases i <;> decide

/-- Another all-success three-round debate, for instantiating the
amended round-number theorem. -/
def ctxC1w : DebateCtx :=
  ⟨"ship it?", "claude", "codex", "gemini", 3, okResp "open-pro",
    okResp "open-con", fun _ => okResp "reb-pro", fun _ => okResp "reb-con",
    okResp "verdict"⟩

/-- Claim C1, witness: the amended theorem applied at a concrete
debate configuration. -/
theorem c1_witness :
    Except.map (fun res => res.arguments.map (fun a => (a.position, a.round_num)))
        (debateRun ctxC1w) =
      Except.ok [("pro", 1), ("con", 1), ("pro", 2), ("con", 3), ("pro", 4),
        ("con", 5)] :=
  (c1_debate_rounds ctxC1w rfl rfl rfl (fun _ => rfl) (fun _ => rfl)).1

/-- Net brace depth of a character run (+1 per opening, -1 per
closing brace). -/
def braceNet : List Char → Int
  | [] => 0
  | c :: rest =>
    (if c = '\x7b' then 1 else if c = '\x7d' then -1 else 0) + braceNet rest

/-- Soundness of the depth scan: from a positive depth, a successful
scan consumes a nonempty prefix whose net depth cancels the starting
depth. -/
lemma braceScan_sound (l : List Char) :
    ∀ (d : Nat) (acc cs : List Char), 0 < d →
    braceScan d acc l = some cs →
    ∃ u rest, l = u ++ rest ∧ cs = acc ++ u ∧
      (d : Int) + braceNet u = 0 ∧ u ≠ [] := by
  induction l with
  | nil => intro d acc cs hd h; cases h
  | cons c rest ih =>
    intro d acc cs hd h
    by_cases h1 : c = '\x7b'
    · subst h1
      rw [show braceScan d acc ('\x7b' :: rest) =
          braceScan (d + 1) (acc ++ ['\x7b']) rest by simp [braceScan]] at h
      obtain ⟨u, rest', he, hcs, hnet, hne⟩ :=
        ih (d + 1) (acc ++ ['\x7b']) cs (by omega) h
      refine ⟨'\x7b' :: u, rest', by rw [he]; simp, by rw [hcs]; simp, ?_, by simp⟩
      have : braceNet ('\x7b' :: u) = 1 + braceNet u := by simp [braceNet]
      rw [this]
      push_cast at hnet ⊢
      omega
    · by_cases h2 : c = '\x7d'
      · subst h2
        by_cases h3 : d = 1
        · subst h3
          rw [show braceScan 1 acc ('\x7d' :: rest) = some (acc ++ ['\x7d']) by
            simp [braceScan, h1]] at h
          obtain rfl : cs = acc ++ ['\x7d'] := (Option.some.injEq .. ▸ h).symm
          refine ⟨['\x7d'], rest, rfl, rfl, by simp [braceNet], by simp⟩
        · rw [show braceScan d acc ('\x7d' :: rest) =
              braceScan (d - 1) (acc ++ ['\x7d']) rest by
            simp [braceScan, h1, h3]] at h
          obtain ⟨u, rest', he, hcs, hnet, hne⟩ :=
            ih (d - 1) (acc ++ ['\x7d']) cs (by omega) h
          refine ⟨'\x7d' :: u, rest', by rw [he]; simp, by rw [hcs]; simp, ?_, by simp⟩
          have hb : braceNet ('\x7d' :: u) = -1 + braceNet u := by
            simp [braceNet]
          rw [hb]
          have hc : ((d - 1 : Nat) : Int) = (d : Int) - 1 := by omega
          rw [hc] at hnet
          omega
      · rw [show braceScan d acc (c :: rest) =
            braceScan d (acc ++ [c]) rest by simp [braceScan, h1, h2]] at h
        obtain ⟨u, rest', he, hcs, hnet, hne⟩ := ih d (acc ++ [c]) cs hd h
        refine ⟨c :: u, rest', by rw [he]; simp, by rw [hcs]; simp, ?_, by simp⟩
        have hb : braceNet (c :: u) = 0 + braceNet u := by simp [braceNet, h1, h2]
        rw [hb]
        omega

/-- Soundness of the search for the first opening brace. -/
lemma fromFirstBrace_sound (l : List Char) :
    ∀ m, fromFirstBrace l = some m →
    ∃ pre, l = pre ++ m ∧ (∀ c ∈ pre, c ≠ '\x7b') ∧
      ∃ m', m = '\x7b' :: m' := by
  induction l with
  | nil => intro m h; cases h
  | cons c rest ih =>
    intro m h
    by_cases h1 : c = '\x7b'
    · subst h1
      rw [show fromFirstBrace ('\x7b' :: rest) = some ('\x7b' :: rest) by
        simp [fromFirstBrace]] at h
      obtain rfl : m = '\x7b' :: rest := (Option.some.injEq .. ▸ h).symm
      exact ⟨[], rfl, by simp, rest, rfl⟩
    · rw [show fromFirstBrace (c :: rest) = fromFirstBrace rest by
        simp [fromFirstBrace, h1]] at h
      obtain ⟨pre, he, hpre, m', hm⟩ := ih m h
      refine ⟨c :: pre, by rw [List.cons_append, he], ?_, m', hm⟩
      intro x hx
      rcases List.mem_cons.mp hx with hh | hh
      · rw [hh]; exact h1
      · exact hpre x hh

/-- Claim C8 (amended): the lenient parse returns the whole-string
parse when json.loads succeeds on all of it (whatever JSON value that
is); otherwise it considers exactly one candidate — the substring from
the first opening brace to the position where brace depth first
returns to zero — returning its parse when valid and the engine's
empty fallback (empty dict for council/debate, None for deliberation)
in every other case, never an exception; the candidate really is a
brace-balanced chunk starting at the first opening brace of the
text. -/
theorem c8_lenient_parse (content : String) :
    (∀ v, loads content = some v →
      councilParseJson content = v ∧ delibParseJson content = some v) ∧
    (loads content = none →
      councilParseJson content =
        ((extractCandidate content).bind loads).getD (JVal.obj []) ∧
      delibParseJson content = (extractCandidate content).bind loads) ∧
    (∀ s, extractCandidate content = some s →
      ∃ pre post, content.data = pre ++ s.data ++ post ∧
        (∀ c ∈ pre, c ≠ '\x7b') ∧ braceNet s.data = 0 ∧ s.data ≠ []) := by
  refine ⟨?_, ?_, ?_⟩
  · intro v h
    exact ⟨by simp [councilParseJson, h], by simp [delibParseJson, h]⟩
  · intro h
    constructor
    · rw [councilParseJson.eq_def, h]
      cases he : extractCandidate content with
      | none => simp
      | some sub =>
        cases hl : loads sub with
        | none => simp [hl]
        | some v => simp [hl]
    · rw [delibParseJson.eq_def, h]
      cases he : extractCandidate content with
      | none => simp
      | some sub => simp
  · intro s h
    unfold extractCandidate at h
    cases hf : fromFirstBrace content.data with
    | none => simp [hf] at h
    | some m =>
      simp only [hf] at h
      cases hb : braceScan 0 [] m with
      | none => simp [hb] at h
      | some cs =>
        simp only [hb, Option.some.injEq] at h
        obtain rfl : s = String.mk cs := h.symm
        obtain ⟨pre, hpre, hnob, m', rfl⟩ := fromFirstBrace_sound content.data m hf
        rw [show braceScan 0 [] ('\x7b' :: m') =
            braceScan 1 ['\x7b'] m' by simp [braceScan]] at hb
        obtain ⟨u, rest', he, hcs, hnet, hne⟩ :=
          braceScan_sound m' 1 ['\x7b'] cs (by omega) hb
        refine ⟨pre, rest', ?_, hnob, ?_, ?_⟩
        · rw [hpre, he, hcs]
          simp
        · rw [show (String.mk cs).data = cs from rfl, hcs]
          have : braceNet ('\x7b' :: u) = 1 + braceNet u := by simp [braceNet]
          simp only [List.singleton_append]
          rw [this]
          omega
        · rw [show (String.mk cs).data = cs from rfl, hcs]
          simp

/-- Modelled from the spec, for comparison with the code's
`_parse_json`: "the first balanced-brace JSON object found anywhere in
the text" — scan left to right, and at each opening brace try the
balanced chunk; return the first one that parses as a JSON object. -/
def specFirstJsonObjectAux : List Char → Option JVal
  | [] => none
  | c :: rest =>
    if c = '\x7b' then
      match (braceScan 0 [] (c :: rest)).bind (fun cs => loads (String.mk cs)) with
      | some (JVal.obj kvs) => some (JVal.obj kvs)
      | _ => specFirstJsonObjectAux rest
    else specFirstJsonObjectAux rest

/-- Spec-side reading of the extraction clause of the lenient parse,
applied to a whole text. -/
def specFirstJsonObject (content : String) : Option JVal :=
  specFirstJsonObjectAux content.data

/-- Claim C8, counterexample: in `x \x7bbad\x7d \x7b"a": "b"\x7d` the
first balanced-brace chunk is not valid JSON, so the code returns the
empty fallback even though a balanced-brace JSON object occurs later
in the text — refuting "the first balanced-brace JSON object found
anywhere in the text". -/
theorem c8_counterexample :
    councilParseJson "x \x7bbad\x7d \x7b\"a\": \"b\"\x7d" = JVal.obj [] ∧
    delibParseJson "x \x7bbad\x7d \x7b\"a\": \"b\"\x7d" = none ∧
    specFirstJsonObject "x \x7bbad\x7d \x7b\"a\": \"b\"\x7d" =
      some (JVal.obj [("a", JVal.str "b")]) ∧
    JVal.obj [] ≠ JVal.obj [("a", JVal.str "b")] := by
  refine ⟨rfl, rfl, rfl, ?_⟩
  intro h
  injection h with h2
  exact absurd h2 (by simp)

/-- Claim C8, witness: the amended theorem applied at concrete inputs
for the whole-parse, extraction, and fallback cases. -/
theorem c8_witness :
    councilParseJson "\x7b\"a\": \"b\"\x7d" = JVal.obj [("a", JVal.str "b")] ∧
    councilParseJson "noise" = JVal.obj [] ∧
    delibParseJson "pre \x7b\"a\": \"b\"\x7d post" =
      some (JVal.obj [("a", JVal.str "b")]) := by
  refine ⟨((c8_lenient_parse "\x7b\"a\": \"b\"\x7d").1
    (JVal.obj [("a", JVal.str "b")]) rfl).1, ?_, ?_⟩
  · have h := ((c8_lenient_parse "noise").2.1 rfl).1
    rw [h]
    rfl
  · have h := ((c8_lenient_parse "pre \x7b\"a\": \"b\"\x7d post").2.1 rfl).2
    rw [h]
    rfl
